import Mathlib

/-!
Verification of the document import/export engine of `ia_provider`
(`src/ia_provider/importer.py` and `src/ia_provider/exporter.py`).

The Python code is shallowly embedded: Python dictionaries carrying style
information become records whose fields distinguish a missing key, a key
bound to `None`, and a key bound to a value; the word-processor document
object model (python-docx) is embedded as a tree of paragraphs (style name
plus formatted runs) and tables; exceptions are embedded as `Except`.
String primitives are re-implemented over `List Char` so that every
definition evaluates by kernel reduction.
-/

namespace IaProvider

/-! ### String primitives (Python semantics, executable) -/

/-- Whitespace characters recognised by Python `str.strip` (ASCII range). -/
def pyIsSpace (c : Char) : Bool :=
  c = ' ' || c = '\t' || c = '\n' || c = '\r' || c = '\x0b' || c = '\x0c'

/-- True when the string is empty or whitespace-only, i.e. when Python
`s.strip()` is falsy. -/
def isBlank (s : String) : Bool := s.data.all pyIsSpace

/-- Lower-cases an ASCII letter, as Python `str.lower` does on the style
names appearing here. -/
def pyLowerChar (c : Char) : Char :=
  if 65 ≤ c.toNat ∧ c.toNat ≤ 90 then Char.ofNat (c.toNat + 32) else c

/-- Python `s.lower()` (ASCII). -/
def pyLower (s : String) : String := ⟨s.data.map pyLowerChar⟩

/-- Python `pat in s` (substring containment). -/
def strContains (s pat : String) : Bool := decide (pat.data <:+: s.data)

/-- Python `s.startswith(pat)`. -/
def strStartsWith (s pat : String) : Bool := decide (pat.data <+: s.data)

/-- Python `"".join`, also used for concatenating run texts. -/
def strConcat : List String → String
  | [] => ""
  | s :: r => ⟨s.data ++ (strConcat r).data⟩

/-- Python `sep.join(parts)`. -/
def strIntercalate (sep : String) : List String → String
  | [] => ""
  | [s] => s
  | s :: r => ⟨s.data ++ sep.data ++ (strIntercalate sep r).data⟩

/-- Python `s.split(sep)` for a one-character separator; `"".split(sep)`
gives `[""]`, like the Python call. -/
def splitOnChar (sep : Char) : List Char → List (List Char)
  | [] => [[]]
  | c :: cs =>
    let r := splitOnChar sep cs
    if c = sep then [] :: r
    else (c :: r.headI) :: r.tail

/-- Python `s.strip()` (both ends, ASCII whitespace). -/
def pyStrip (l : List Char) : List Char :=
  (l.dropWhile pyIsSpace).reverse.dropWhile pyIsSpace |>.reverse

/-- Python `s.replace("0x", "")`: removes every non-overlapping occurrence,
scanning left to right. -/
def remove0x : List Char → List Char
  | '0' :: 'x' :: rest => remove0x rest
  | c :: rest => c :: remove0x rest
  | [] => []

/-- Value of a hexadecimal digit, if the character is one. -/
def hexDigitVal (c : Char) : Option Nat :=
  if '0' ≤ c ∧ c ≤ '9' then some (c.toNat - 48)
  else if 'a' ≤ c ∧ c ≤ 'f' then some (c.toNat - 87)
  else if 'A' ≤ c ∧ c ≤ 'F' then some (c.toNat - 70)
  else none

/-- Python `int(s, 16)` on a plain string of hex digits (an optional `0X`
prefix is accepted, as Python does with base 16; a sign or any other
character makes the conversion raise, embedded as `none`). -/
def hexNat : List Char → Option Nat
  | [] => none
  | l =>
    l.foldl (fun acc c => match acc, hexDigitVal c with
      | some n, some d => some (n * 16 + d)
      | _, _ => none) (some 0)

/-- Python `int(s, 16)` as used in the legacy colour branch: strip, remove
`0x`, allow the residual `0X` prefix. -/
def pyIntBase16 (l : List Char) : Option Nat :=
  let l1 := remove0x (pyStrip l)
  let l2 := if l1.take 2 = ['0', 'X'] then l1.drop 2 else l1
  hexNat l2

/-- Value of a decimal digit string (all characters digits, nonempty). -/
def decNat : List Char → Option Nat
  | [] => none
  | l =>
    l.foldl (fun acc c => match acc with
      | some n => if c.isDigit then some (n * 10 + (c.toNat - 48)) else none
      | none => none) (some 0)

/-- Python `int(s)`: strip, optional sign, decimal digits; anything else
raises, embedded as `none`. -/
def pyInt (s : String) : Option Int :=
  match pyStrip s.data with
  | '-' :: ds => (decNat ds).map (fun n => -(n : Int))
  | '+' :: ds => (decNat ds).map (fun n => (n : Int))
  | ds => (decNat ds).map (fun n => (n : Int))

/-- Python `int(x)` on a number: truncation toward zero. -/
def pyTrunc (q : Rat) : Int := if 0 ≤ q then q.floor else -((-q).floor)

/-- Hex rendering `"%02X"` of one colour component. -/
def toHex2 (n : Nat) : String :=
  let dig (d : Nat) : Char :=
    if d < 10 then Char.ofNat (48 + d) else Char.ofNat (55 + d)
  ⟨[dig (n / 16 % 16), dig (n % 16)]⟩

/-! ### Style model

A Python style dictionary distinguishes a missing key, a key bound to
`None`, and a key bound to a value; `PyField` mirrors the three cases. -/

/-- One entry of a Python dictionary: missing key, key bound to `None`,
or key bound to a value. -/
inductive PyField (α : Type) where
  | absent : PyField α
  | null : PyField α
  | val : α → PyField α
deriving DecidableEq, Repr

/-- Python `d.get(k)`: `None` both for a missing key and a `None` value. -/
def PyField.get {α : Type} : PyField α → Option α
  | .absent => none
  | .null => none
  | .val a => some a

/-- Python `d.get(k, dflt)`: the default only when the key is missing; a
key bound to `None` still yields `None` (embedded as `none`). -/
def PyField.getOr {α : Type} : PyField α → α → Option α
  | .absent, d => some d
  | .null, _ => none
  | .val a, _ => some a

/-- Wraps an always-present key whose value may be `None`. -/
def PyField.ofOption {α : Type} : Option α → PyField α
  | none => .null
  | some a => .val a

/-- A `font_size` value found in a style dictionary. `num` is an int or
float (truthy iff nonzero, `int` truncates); `raw` is any other Python
value, carrying its truthiness and the result of `int` on it (`none` when
`int` raises). -/
inductive SizeVal where
  | num : Rat → SizeVal
  | raw : Bool → Option Int → SizeVal
deriving DecidableEq, Repr

/-- Python truthiness of a `font_size` value. -/
def SizeVal.truthy : SizeVal → Bool
  | .num q => q ≠ 0
  | .raw t _ => t

/-- Python `int` applied to a `font_size` value; `none` when it raises. -/
def SizeVal.toIntOpt : SizeVal → Option Int
  | .num q => some (pyTrunc q)
  | .raw _ i => i

/-- A `font_color_rgb` value found in a style dictionary: a string or an
unpackable triple of integers. -/
inductive ColorVal where
  | str : String → ColorVal
  | triple : Nat → Nat → Nat → ColorVal
deriving DecidableEq, Repr

/-- Python truthiness of a colour value (a tuple is nonempty, hence
truthy). -/
def ColorVal.truthy : ColorVal → Bool
  | .str s => s ≠ ""
  | .triple _ _ _ => true

/-- A style dictionary (importer.py 25-33, exporter.py docstrings): every
field may be missing, `None`, or set. -/
structure StyleDict where
  font_name : PyField String := .absent
  font_size : PyField SizeVal := .absent
  is_bold : PyField Bool := .absent
  is_italic : PyField Bool := .absent
  font_color_rgb : PyField ColorVal := .absent
deriving DecidableEq, Repr

/-- The empty style dictionary `{}`. -/
def emptyStyleDict : StyleDict := {}

/-- One field of the Python dict merge `{**base, **override}`: the
override entry wins whenever its key is present (even bound to `None`). -/
def PyField.merge {α : Type} : PyField α → PyField α → PyField α
  | base, .absent => base
  | _, ov => ov

/-- Python `{**base, **override}` on style dictionaries, the merge used by
`_appliquer_style_run` (exporter.py 302) and
`MarkdownToDocxConverter._apply_style` (exporter.py 43). -/
def mergeStyle (base ov : StyleDict) : StyleDict where
  font_name := base.font_name.merge ov.font_name
  font_size := base.font_size.merge ov.font_size
  is_bold := base.is_bold.merge ov.is_bold
  is_italic := base.is_italic.merge ov.is_italic
  font_color_rgb := base.font_color_rgb.merge ov.font_color_rgb

/-! ### Data model: neutral document structure and docx document -/

/-- One run of the neutral structure, i.e. a Python dict with keys `text`
(defaulted to `""` by consumers) and `style` (defaulted to `None`). -/
structure RunData where
  text : String := ""
  style : Option StyleDict := none
deriving DecidableEq, Repr

/-- One block of the neutral structure: a dict whose `type` tag selects the
payload. `par` is a dict with a `runs` key and an arbitrary `type` string
(the importer only produces `paragraph`, `heading_1`, `heading_2`); `list`
has `type = "list"` and an `items` key; `table` has `type = "table"` and a
`rows` key, each row a list of cells, each cell a list of blocks. -/
inductive Bloc where
  | par : String → List RunData → Bloc
  | list : List String → Bloc
  | table : List (List (List Bloc)) → Bloc

/-- The `type` tag of a block. -/
def Bloc.typeTag : Bloc → String
  | .par t _ => t
  | .list _ => "list"
  | .table _ => "table"

/-- A document structure: the three partitions returned by the reader. -/
structure DocStructure where
  header : List Bloc
  body : List Bloc
  footer : List Bloc

/-- A docx run as the object model exposes it: its text, and the resolved
leaf formatting (`font.name`, `font.size.pt`, `font.bold`, `font.italic`,
`font.color.rgb` rendered as a hex string), each `none` when unset. -/
structure DocxRun where
  text : String := ""
  fontName : Option String := none
  sizePt : Option Rat := none
  bold : Option Bool := none
  italic : Option Bool := none
  colorHex : Option String := none
deriving DecidableEq, Repr

/-- A block-level child of a docx container: a paragraph (style name, when
the paragraph has a named style, and its runs) or a table (rows of cells,
each cell a list of blocks). -/
inductive DocxBlock where
  | par : Option String → List DocxRun → DocxBlock
  | table : List (List (List DocxBlock)) → DocxBlock

/-- A docx section: its header and footer block containers. The reader
never observes these fields: its traversal of a header or footer raises
before reading any content (see `analyser_docx`), so they are carried only
to describe the file. -/
structure DocxSection where
  header : Option (List DocxBlock) := none
  footer : Option (List DocxBlock) := none

/-- A docx document: the body children and the sections. -/
structure DocxFile where
  body : List DocxBlock
  sections : List DocxSection := []

/-! ### Document reader (importer.py) -/

/-- Models `_extraire_style_run` (importer.py 21-34): every key of the
produced style dict is present, several values may be `None`; a size of
0 pt is falsy, hence reported as `None`. -/
def extraire_style_run (r : DocxRun) : RunData where
  text := r.text
  style := some
    { font_name := PyField.ofOption r.fontName
    , font_size :=
        match r.sizePt with
        | some q => if q = 0 then .null else .val (.num q)
        | none => .null
    , is_bold := PyField.ofOption r.bold
    , is_italic := PyField.ofOption r.italic
    , font_color_rgb := PyField.ofOption (r.colorHex.map ColorVal.str) }

/-- The text of a docx paragraph: concatenation of its run texts. -/
def paraText (runs : List DocxRun) : String := strConcat (runs.map DocxRun.text)

/-- Models `block.style.name.lower() if block.style and block.style.name
else ""` (importer.py 59). -/
def styleNameLower : Option String → String
  | some s => pyLower s
  | none => ""

/-- Models the list test of importer.py 62: the style name contains `list`
or `liste`. -/
def isListStyle (sn : String) : Bool := strContains sn "list" || strContains sn "liste"

/-- Models the heading classification of importer.py 71-76: only levels 1
and 2 are matched, in English and French naming; everything else is a
plain paragraph. -/
def headingType (sn : String) : String :=
  if strStartsWith sn "heading 1" || strStartsWith sn "titre 1" then "heading_1"
  else if strStartsWith sn "heading 2" || strStartsWith sn "titre 2" then "heading_2"
  else "paragraph"

/-- True when the analysed prefix ends with a list block (the
`contenu_structure[-1]["type"] == "list"` test of importer.py 64). -/
def endsWithList (acc : List Bloc) : Bool :=
  match acc.getLast? with
  | some (.list _) => true
  | _ => false

/-- Processing of one docx paragraph by `_analyser_contenu_block`
(importer.py 55-80), appending to the structure built so far. -/
def stepPara (acc : List Bloc) (style : Option String) (runs : List DocxRun) : List Bloc :=
  if isBlank (paraText runs) then acc
  else
    let sn := styleNameLower style
    if isListStyle sn then
      match acc.getLast? with
      | some (.list items) => acc.dropLast ++ [.list (items ++ [paraText runs])]
      | _ => acc ++ [.list [paraText runs]]
    else
      let rd := (runs.filter (fun r => !(isBlank r.text))).map extraire_style_run
      if rd.isEmpty then acc else acc ++ [.par (headingType sn) rd]

mutual

/-- The block loop of `_analyser_contenu_block` (importer.py 53-90),
carried out on an accumulator. -/
def analyserAux : List Bloc → List DocxBlock → List Bloc
  | acc, [] => acc
  | acc, .par st runs :: rest => analyserAux (stepPara acc st runs) rest
  | acc, .table rows :: rest =>
      let tdata := analyserRows rows
      analyserAux (if tdata.isEmpty then acc else acc ++ [.table tdata]) rest

/-- The row loop of the table branch (importer.py 84-86). -/
def analyserRows : List (List (List DocxBlock)) → List (List (List Bloc))
  | [] => []
  | row :: rs => analyserRow row :: analyserRows rs

/-- The cell loop of the table branch (importer.py 85). -/
def analyserRow : List (List DocxBlock) → List (List Bloc)
  | [] => []
  | cell :: cs => analyserAux [] cell :: analyserRow cs

end

/-- Models `_analyser_contenu_block` (importer.py 37-90) on the children of
a container. -/
def analyser_contenu_block (blocks : List DocxBlock) : List Bloc :=
  analyserAux [] blocks

/-- The two classes of exception caught by `analyser_docx`: `OpcError`
(corrupt package, importer.py 121) and any other exception
(importer.py 124). -/
inductive DocxErr where
  | opcError : String → DocxErr
  | other : String → DocxErr
deriving DecidableEq, Repr

/-- The empty document structure returned on failure. -/
def emptyStructure : DocStructure := ⟨[], [], []⟩

/-- Models `analyser_docx` (importer.py 93-126). Opening the byte stream
as a document is embedded as an `Except` value; both exception branches
return the empty structure; the diagnostics slot is always `None`.

When the document has at least one section, the function always falls into
the catch-all branch: `section.header` returns a header proxy object with
no `__bool__`, so the `if section.header:` test at importer.py 109 is
taken, and `_analyser_contenu_block` then evaluates
`parent_item.element.body` (importer.py 45) on it — the header element is
a `w:hdr` (`CT_HdrFtr`), which has no `body` attribute, so an
`AttributeError` is raised and the handler at importer.py 124 discards the
already-parsed body and returns the empty structure. Only a (hypothetical)
document without sections has its body read. -/
def analyser_docx (opened : Except DocxErr DocxFile) : DocStructure × Option Unit :=
  match opened with
  | .error _ => (emptyStructure, none)
  | .ok doc =>
    match doc.sections with
    | [] => ({ header := [], body := analyser_contenu_block doc.body, footer := [] }, none)
    | _ :: _ => (emptyStructure, none)

/-! ### Structured renderer (exporter.py) -/

/-- The size set by the walrus-guarded block of `_appliquer_style_run`
(exporter.py 308-312): a falsy `font_size` (missing, `None`, zero or falsy
junk) is skipped; otherwise `Pt(int(size))` is applied, and a value on
which `int` raises is silently ignored. The result is the applied size in
points, `none` when the run size stays unset. -/
def appliedFontSize (f : PyField SizeVal) : Option Int :=
  match f.get with
  | none => none
  | some v => if v.truthy then v.toIntOpt else none

/-- Models `RGBColor.from_string` (exporter.py 321): the three byte slices
`s[0:2]`, `s[2:4]`, `s[4:6]` each parsed as hex; `int` raising on an empty
or non-hex slice is embedded as `none`. -/
def colorFromString (s : String) : Option (Nat × Nat × Nat) :=
  match hexNat (s.data.take 2), hexNat ((s.data.drop 2).take 2), hexNat ((s.data.drop 4).take 2) with
  | some r, some g, some b => some (r, g, b)
  | _, _, _ => none

/-- Python list slice `l[a:b]` with possibly negative bounds, as used by
`color[color.find("(") + 1 : color.find(")")]` (exporter.py 317). -/
def pySlice (l : List Char) (a b : Int) : List Char :=
  let n : Int := l.length
  let norm (i : Int) : Nat := (max 0 (min (if i < 0 then n + i else i) n)).toNat
  (l.take (norm b)).drop (norm a)

/-- Python `s.find(c)`: first index, `-1` when absent. -/
def pyFind (l : List Char) (c : Char) : Int :=
  match l.findIdx? (· = c) with
  | some i => (i : Int)
  | none => -1

/-- Models the legacy branch of `_appliquer_style_run` (exporter.py
316-319): the text between the parentheses is split on commas and each
part is parsed in base 16 after stripping and removing `0x`; `RGBColor`
then requires exactly three components, each below 256. Any failure is
embedded as `none`. -/
def parseLegacyColor (s : String) : Option (Nat × Nat × Nat) :=
  let inner := pySlice s.data (pyFind s.data '(' + 1) (pyFind s.data ')')
  match (splitOnChar ',' inner).map pyIntBase16 with
  | [some r, some g, some b] =>
      if r ≤ 255 ∧ g ≤ 255 ∧ b ≤ 255 then some (r, g, b) else none
  | _ => none

/-- The colour actually stored on the run by `_appliquer_style_run`
(exporter.py 313-325), as the hex string `str(RGBColor(...))`; `none` when
the branch is skipped or the `try` swallows an exception. -/
def appliedColor (f : PyField ColorVal) : Option String :=
  match f.get with
  | none => none
  | some c =>
    if c.truthy then
      match c with
      | .str s =>
          if strStartsWith s "RGBColor" then
            (parseLegacyColor s).map (fun t => toHex2 t.1 ++ toHex2 t.2.1 ++ toHex2 t.2.2)
          else
            (colorFromString s).map (fun t => toHex2 t.1 ++ toHex2 t.2.1 ++ toHex2 t.2.2)
      | .triple r g b =>
          if r ≤ 255 ∧ g ≤ 255 ∧ b ≤ 255 then some (toHex2 r ++ toHex2 g ++ toHex2 b) else none
    else none

/-- Models `_appliquer_style_run` (exporter.py 300-327): the state of a
fresh run of the given text after the combined style
`{**base_style, **(style or {})}` has been applied. `run.bold` and
`run.italic` receive `style_combined.get("is_bold", False)` and its italic
counterpart, so a key bound to `None` leaves the flag unset. -/
def appliquer_style_run (text : String) (style : Option StyleDict) (base : StyleDict) : DocxRun :=
  let m := mergeStyle base (style.getD emptyStyleDict)
  { text := text
  , fontName :=
      match m.font_name.get with
      | some s => if s = "" then none else some s
      | none => none
  , sizePt := (appliedFontSize m.font_size).map (fun n => (n : Rat))
  , bold := m.is_bold.getOr false
  , italic := m.is_italic.getOr false
  , colorHex := appliedColor m.font_color_rgb }

/-- A run created by `add_run(t)` with no further formatting. -/
def plainDocxRun (t : String) : DocxRun := { text := t }

/-- Models python-docx `add_paragraph(text, style)`: a run is created only
when the text is nonempty. -/
def addParagraphText (style : Option String) (t : String) : DocxBlock :=
  .par style (if t = "" then [] else [plainDocxRun t])

/-- The flat cell indices written by the table branch of
`generer_export_docx` (exporter.py 351-355): python-docx `table.cell(r, c)`
reads the flat cell list at `r * column_count + c`, so a row longer than
the first one overflows into the following rows rather than raising, and
only an index at or past the end of the `n * cols` grid raises. -/
def tableWrites (rows : List (List (List Bloc))) (cols : Nat) : List Nat :=
  rows.enum.flatMap (fun p => (List.range p.2.length).map (fun c => p.1 * cols + c))

/-- The grid written by the table branch of `generer_export_docx`
(exporter.py 347-356) when every cell payload is an empty list and no flat
index is out of range: an `n × cols` grid where each cell holds its one
default paragraph carrying one empty styled run per write that lands on
it. -/
def exportGrid (base : StyleDict) (rows : List (List (List Bloc))) (cols : Nat) :
    List (List (List DocxBlock)) :=
  (List.range rows.length).map (fun r =>
    (List.range cols).map (fun c =>
      [DocxBlock.par (some "Normal")
        (List.replicate ((tableWrites rows cols).count (r * cols + c))
          (appliquer_style_run "" none base))]))

/-- The heading level computed at exporter.py 358-362:
`int(type_bloc.split("_")[-1])` with fallback 1 when `int` raises. -/
def exportHeadingLevel (btype : String) : Int :=
  (pyInt ⟨(splitOnChar '_' btype.data).getLastD []⟩).getD 1

/-- Rendering of one block by the loop of `generer_export_docx`
(exporter.py 339-369). The error value embeds an uncaught Python
exception: `add_heading` raising on a level outside 0..9, and the table
branch calling `add_run` on a cell payload that is not text (a nonempty
list of blocks, whose characters cannot be joined), or a flat cell index
reaching past the `n * cols` grid taken from the first row. -/
def exportBloc (base : StyleDict) : Bloc → Except Unit (List DocxBlock)
  | .list items =>
      .ok (items.map (fun item => addParagraphText (some "List Bullet") item))
  | .table rows =>
      if rows.isEmpty then .ok []
      else
        let cols := rows.headI.length
        if rows.all (fun row => row.all (fun cell => cell.isEmpty))
            && (tableWrites rows cols).all (fun i => decide (i < rows.length * cols)) then
          .ok [DocxBlock.table (exportGrid base rows cols)]
        else .error ()
  | .par btype runs =>
      if btype = "list" then .ok []
      else if btype = "table" then .ok []
      else if strStartsWith btype "heading" then
        let level := exportHeadingLevel btype
        if 0 ≤ level ∧ level ≤ 9 then
          .ok [DocxBlock.par
                (some (if level = 0 then "Title" else "Heading " ++ toString level))
                (runs.map (fun rd => appliquer_style_run rd.text rd.style base))]
        else .error ()
      else
        .ok [DocxBlock.par (some "Normal")
              (runs.map (fun rd => appliquer_style_run rd.text rd.style base))]

/-- The block loop of `generer_export_docx`, appending each rendered block
to the document body. -/
def genererAux (base : StyleDict) : List Bloc → Except Unit (List DocxBlock)
  | [] => .ok []
  | b :: bs => do
    let d ← exportBloc base b
    let rest ← genererAux base bs
    pure (d ++ rest)

/-- Models `generer_export_docx` (exporter.py 330-374): the body of the
document written to the output stream. The style table is the mapping
from role names to style dictionaries; the base style is
`styles_interface.get("response", {})`. -/
def generer_export_docx (styles_interface : String → Option StyleDict)
    (reponse_structuree : List Bloc) : Except Unit (List DocxBlock) :=
  genererAux ((styles_interface "response").getD emptyStyleDict) reponse_structuree

/-! ### Markup renderer fallback (exporter.py, `add_markdown`) -/

/-- The warning text written by the fallback branch of `add_markdown`
(exporter.py 202-204). -/
def markdownWarningText (e : String) : String :=
  "[Le formatage de ce bloc a échoué. Contenu original ci-dessous. Erreur : " ++ e ++ "]"

/-- The warning paragraph of the fallback branch: one run, italic, grey
`RGBColor(120, 120, 120)`. -/
def markdownWarningPara (e : String) : DocxBlock :=
  .par (some "Normal")
    [{ text := markdownWarningText e, italic := some true, colorHex := some "787878" }]

/-- Models `MarkdownToDocxConverter.add_markdown` (exporter.py 186-208).
The markup-to-document pipeline (markdown conversion, HTML parsing and the
recursive `_process_element` walk) is passed as an oracle returning the
blocks it appended to the document and, in the second component, the
exception it raised, when it raised one. The walk appends to the document
incrementally, so the blocks rendered before a mid-walk exception stay in
the document (for example, markdown passes raw HTML through, and a table
whose second row is longer than its first makes `table.cell` at
exporter.py 178 raise an `IndexError` after earlier elements were already
rendered); the handler then appends the warning paragraph and a paragraph
with the original text after them. An empty text returns before the
pipeline runs. -/
def add_markdown (pipeline : String → List DocxBlock × Option String)
    (doc : List DocxBlock) (text : String) : List DocxBlock :=
  if text = "" then doc
  else
    match pipeline text with
    | (appended, none) => doc ++ appended
    | (appended, some e) =>
        doc ++ appended ++ [markdownWarningPara e, addParagraphText (some "Normal") text]

/-! ### Text flattener (importer.py, `extraire_texte_de_structure`) -/

mutual

/-- The texts appended by `extraire_runs` (importer.py 169-200) for one
block, dispatching on the `type` tag: tables recurse depth-first into each
cell, lists contribute their non-blank items, blocks with a truthy `runs`
list contribute their concatenated run text when non-blank, and anything
else contributes nothing. -/
def extraireBloc : Bloc → List String
  | .table rows => extraireRows rows
  | .list items => items.filter (fun i => !(isBlank i))
  | .par bt runs =>
      if bt = "table" then []
      else if bt = "list" then []
      else if runs.isEmpty then []
      else
        let p := strConcat (runs.map RunData.text)
        if isBlank p then [] else [p]

/-- Row recursion of the table branch (importer.py 177-179). -/
def extraireRows : List (List (List Bloc)) → List String
  | [] => []
  | row :: rs => extraireRowCells row ++ extraireRows rs

/-- Cell recursion of the table branch (importer.py 178-179). -/
def extraireRowCells : List (List Bloc) → List String
  | [] => []
  | cell :: cs => extraireList cell ++ extraireRowCells cs

/-- The loop of `extraire_runs` over a list of blocks. -/
def extraireList : List Bloc → List String
  | [] => []
  | b :: bs => extraireBloc b ++ extraireList bs

end

/-- Models `extraire_texte_de_structure` (importer.py 153-210): header,
body and footer are walked in that order and the collected texts are
joined with a blank line. -/
def extraire_texte_de_structure (d : DocStructure) : String :=
  strIntercalate "\n\n" (extraireList d.header ++ extraireList d.body ++ extraireList d.footer)

/-! ### Verification layer: observations and wellformedness -/

/-- The text of a docx block, for paragraphs. -/
def DocxBlock.text : DocxBlock → String
  | .par _ runs => paraText runs
  | .table _ => ""

/-- A docx paragraph block the reader treats as a list item: list-marker
style name and non-blank text. -/
def DocxBlock.isListItemPara : DocxBlock → Bool
  | .par st runs => isListStyle (styleNameLower st) && !(isBlank (paraText runs))
  | .table _ => false

/-- A docx paragraph of the named style with a single unformatted run, as
`add_paragraph(t, style=s)` produces for nonempty `t`. -/
def mkStyledPara (style : String) (t : String) : DocxBlock :=
  .par (some style) [plainDocxRun t]

/-- The observable part of a block the round-trip claim compares: the
block type, the ordering (by position in the list) and the run texts. -/
inductive BlocShape where
  | par : String → List String → BlocShape
  | list : List String → BlocShape
  | table : BlocShape
deriving DecidableEq, Repr

/-- The shape of a block: type tag plus run texts or items. -/
def Bloc.shape : Bloc → BlocShape
  | .par t runs => .par t (runs.map RunData.text)
  | .list items => .list items
  | .table _ => .table

/-- True when the list starts with a list block. -/
def headIsList : List Bloc → Bool
  | .list _ :: _ => true
  | _ => false

/-- No two adjacent list blocks. -/
def noAdjacentLists : List Bloc → Bool
  | [] => true
  | .list _ :: rest => !headIsList rest && noAdjacentLists rest
  | _ :: rest => noAdjacentLists rest

/-- Blocks for which the rendering direction is injective enough to be
read back: paragraphs and the two heading levels the reader classifies,
with at least one run, every run text non-blank; nonempty lists of
non-blank items. Tables are excluded: the renderer expects cell texts
where the reader produces cell block lists. -/
def roundTrippable : Bloc → Bool
  | .par t runs =>
      (t = "paragraph" || t = "heading_1" || t = "heading_2")
        && !runs.isEmpty && runs.all (fun r => !(isBlank r.text))
  | .list items => !items.isEmpty && items.all (fun i => !(isBlank i))
  | .table _ => false

/-- The run written for one neutral run by the renderer. -/
def exportRun (base : StyleDict) (rd : RunData) : DocxRun :=
  appliquer_style_run rd.text rd.style base

/-- The run the reader recovers from a run the renderer wrote. -/
def reReadRun (base : StyleDict) (rd : RunData) : RunData :=
  extraire_style_run (exportRun base rd)

/-- The block the reader recovers from the rendering of a round-trippable
block: same type and texts, with the re-extracted styles. -/
def reRead (base : StyleDict) : Bloc → Bloc
  | .par t runs => .par t (runs.map (reReadRun base))
  | .list items => .list items
  | .table rows => .table rows

/-- The docx blocks written for one round-trippable neutral block by the
loop of `generer_export_docx`. -/
def exportBlocOk (base : StyleDict) : Bloc → List DocxBlock
  | .par t runs =>
      [DocxBlock.par
        (some (if t = "heading_1" then "Heading 1"
               else if t = "heading_2" then "Heading 2" else "Normal"))
        (runs.map (exportRun base))]
  | .list items => items.map (fun item => addParagraphText (some "List Bullet") item)
  | .table _ => []

mutual

/-- Cleanliness of an emitted block: paragraphs and headings carry at
least one run and no blank run text; lists carry at least one item and no
blank item; tables are clean cell-wise. -/
def blocClean : Bloc → Bool
  | .par _ runs => !runs.isEmpty && runs.all (fun r => !(isBlank r.text))
  | .list items => !items.isEmpty && items.all (fun i => !(isBlank i))
  | .table rows => rowsClean rows

/-- Cleanliness of the rows of an emitted table. -/
def rowsClean : List (List (List Bloc)) → Bool
  | [] => true
  | r :: rs => rowClean r && rowsClean rs

/-- Cleanliness of one row of an emitted table. -/
def rowClean : List (List Bloc) → Bool
  | [] => true
  | c :: cs => cellClean c && rowClean cs

/-- Cleanliness of a list of emitted blocks. -/
def cellClean : List Bloc → Bool
  | [] => true
  | b :: bs => blocClean b && cellClean bs

end

/-! ### Helper lemmas -/

@[simp]
theorem appliquer_style_run_text (t : String) (s : Option StyleDict) (b : StyleDict) :
    (appliquer_style_run t s b).text = t := rfl

@[simp]
theorem extraire_style_run_text (r : DocxRun) : (extraire_style_run r).text = r.text := rfl

@[simp]
theorem exportRun_text (base : StyleDict) (rd : RunData) : (exportRun base rd).text = rd.text := rfl

@[simp]
theorem reReadRun_text (base : StyleDict) (rd : RunData) : (reReadRun base rd).text = rd.text := rfl

@[simp]
theorem plainDocxRun_text (t : String) : (plainDocxRun t).text = t := rfl

theorem isBlank_strConcat (l : List String) : isBlank (strConcat l) = l.all isBlank := by
  induction l with
  | nil => rfl
  | cons s r ih => simp [strConcat, isBlank, List.all_append] at ih ⊢; rw [ih]

theorem strConcat_singleton (s : String) : strConcat [s] = s := by
  show (⟨s.data ++ ([] : List Char)⟩ : String) = s
  rw [List.append_nil]

theorem paraText_map_exportRun (base : StyleDict) (runs : List RunData) :
    paraText (runs.map (exportRun base)) = strConcat (runs.map RunData.text) := by
  simp [paraText, List.map_map]
  rfl

theorem paraText_plain (t : String) : paraText [plainDocxRun t] = t := by
  simp [paraText, strConcat_singleton]

theorem paraText_nonblank (runs : List DocxRun) (hne : runs ≠ [])
    (h : runs.all (fun r => !(isBlank r.text)) = true) : isBlank (paraText runs) = false := by
  cases runs with
  | nil => exact absurd rfl hne
  | cons r rs =>
    have hr : isBlank r.text = false := by
      have := (List.all_eq_true.mp h) r (by simp)
      simpa using this
    simp [paraText, isBlank_strConcat, hr]

theorem filter_nonblank_of_all (runs : List DocxRun)
    (h : runs.all (fun r => !(isBlank r.text)) = true) :
    runs.filter (fun r => !(isBlank r.text)) = runs :=
  List.filter_eq_self.mpr (List.all_eq_true.mp h)

@[simp]
theorem endsWithList_nil : endsWithList [] = false := rfl

@[simp]
theorem endsWithList_append_par (acc : List Bloc) (t : String) (rs : List RunData) :
    endsWithList (acc ++ [.par t rs]) = false := by
  simp [endsWithList, List.getLast?_concat]

@[simp]
theorem endsWithList_append_list (acc : List Bloc) (items : List String) :
    endsWithList (acc ++ [.list items]) = true := by
  simp [endsWithList, List.getLast?_concat]

@[simp]
theorem endsWithList_append_table (acc : List Bloc) (rows : List (List (List Bloc))) :
    endsWithList (acc ++ [.table rows]) = false := by
  simp [endsWithList, List.getLast?_concat]

theorem stepPara_blank (acc : List Bloc) (st : Option String) (runs : List DocxRun)
    (h : isBlank (paraText runs) = true) : stepPara acc st runs = acc := by
  simp [stepPara, h]

theorem stepPara_list_new (acc : List Bloc) (st : Option String) (runs : List DocxRun)
    (hb : isBlank (paraText runs) = false) (hl : isListStyle (styleNameLower st) = true)
    (he : endsWithList acc = false) :
    stepPara acc st runs = acc ++ [.list [paraText runs]] := by
  simp only [stepPara, hb, Bool.false_eq_true, if_false, hl, if_true]
  unfold endsWithList at he
  cases hacc : acc.getLast? with
  | none => rfl
  | some b =>
    cases b with
    | par t rs => rfl
    | list its => rw [hacc] at he; simp at he
    | table r => rfl

theorem stepPara_list_append (acc : List Bloc) (pre : List String) (st : Option String)
    (runs : List DocxRun) (hb : isBlank (paraText runs) = false)
    (hl : isListStyle (styleNameLower st) = true) :
    stepPara (acc ++ [.list pre]) st runs = acc ++ [.list (pre ++ [paraText runs])] := by
  simp only [stepPara, hb, Bool.false_eq_true, if_false, hl, if_true,
    List.getLast?_concat, List.dropLast_concat]

theorem stepPara_par (acc : List Bloc) (st : Option String) (runs : List DocxRun)
    (hb : isBlank (paraText runs) = false) (hl : isListStyle (styleNameLower st) = false)
    (hf : runs.filter (fun r => !(isBlank r.text)) ≠ []) :
    stepPara acc st runs
      = acc ++ [.par (headingType (styleNameLower st))
          ((runs.filter (fun r => !(isBlank r.text))).map extraire_style_run)] := by
  simp only [stepPara, hb, Bool.false_eq_true, if_false, hl]
  rw [if_neg]
  simp [List.isEmpty_iff, hf]

theorem stepPara_drop (acc : List Bloc) (st : Option String) (runs : List DocxRun)
    (hb : isBlank (paraText runs) = false) (hl : isListStyle (styleNameLower st) = false)
    (hf : runs.filter (fun r => !(isBlank r.text)) = []) :
    stepPara acc st runs = acc := by
  simp [stepPara, hb, hl, hf]

theorem analyserAux_nil (acc : List Bloc) : analyserAux acc [] = acc := by
  simp [analyserAux]

theorem analyserAux_cons_par (acc : List Bloc) (st : Option String) (rs : List DocxRun)
    (rest : List DocxBlock) :
    analyserAux acc (.par st rs :: rest) = analyserAux (stepPara acc st rs) rest := by
  simp [analyserAux]

theorem analyserAux_cons_table (acc : List Bloc) (rows : List (List (List DocxBlock)))
    (rest : List DocxBlock) :
    analyserAux acc (.table rows :: rest)
      = analyserAux
          (if (analyserRows rows).isEmpty then acc else acc ++ [.table (analyserRows rows)])
          rest := by
  simp [analyserAux]

theorem analyserAux_append (acc : List Bloc) (xs ys : List DocxBlock) :
    analyserAux acc (xs ++ ys) = analyserAux (analyserAux acc xs) ys := by
  induction xs generalizing acc with
  | nil => simp [analyserAux_nil]
  | cons x xs ih =>
    cases x with
    | par st rs => rw [List.cons_append, analyserAux_cons_par, analyserAux_cons_par, ih]
    | table rows => rw [List.cons_append, analyserAux_cons_table, analyserAux_cons_table, ih]

theorem analyserAux_listRun_cont (acc : List Bloc) (pre : List String) (ps rest : List DocxBlock)
    (h : ps.all DocxBlock.isListItemPara = true) :
    analyserAux (acc ++ [.list pre]) (ps ++ rest)
      = analyserAux (acc ++ [.list (pre ++ ps.map DocxBlock.text)]) rest := by
  induction ps generalizing pre with
  | nil => simp
  | cons p ps ih =>
    have hp : p.isListItemPara = true := by
      have := List.all_eq_true.mp h p (by simp)
      simpa using this
    have hps : ps.all DocxBlock.isListItemPara = true := by
      apply List.all_eq_true.mpr
      intro x hx
      exact List.all_eq_true.mp h x (by simp [hx])
    cases p with
    | table rows => simp [DocxBlock.isListItemPara] at hp
    | par st runs =>
      simp only [DocxBlock.isListItemPara, Bool.and_eq_true, Bool.not_eq_true'] at hp
      rw [List.cons_append, analyserAux_cons_par, stepPara_list_append acc pre st runs hp.2 hp.1,
        ih _ hps]
      simp [DocxBlock.text]

theorem analyserAux_listRun_start (acc : List Bloc) (ps rest : List DocxBlock)
    (h : ps.all DocxBlock.isListItemPara = true) (hne : ps ≠ [])
    (he : endsWithList acc = false) :
    analyserAux acc (ps ++ rest) = analyserAux (acc ++ [.list (ps.map DocxBlock.text)]) rest := by
  cases ps with
  | nil => exact absurd rfl hne
  | cons p ps =>
    have hp : p.isListItemPara = true := by
      have := List.all_eq_true.mp h p (by simp)
      simpa using this
    have hps : ps.all DocxBlock.isListItemPara = true := by
      apply List.all_eq_true.mpr
      intro x hx
      exact List.all_eq_true.mp h x (by simp [hx])
    cases p with
    | table rows => simp [DocxBlock.isListItemPara] at hp
    | par st runs =>
      simp only [DocxBlock.isListItemPara, Bool.and_eq_true, Bool.not_eq_true'] at hp
      rw [List.cons_append, analyserAux_cons_par, stepPara_list_new acc st runs hp.2 hp.1 he,
        analyserAux_listRun_cont acc [paraText runs] ps rest hps]
      simp [DocxBlock.text]

theorem exportBloc_ok (base : StyleDict) (b : Bloc) (h : roundTrippable b = true) :
    exportBloc base b = .ok (exportBlocOk base b) := by
  cases b with
  | list items => rfl
  | table rows => simp [roundTrippable] at h
  | par t runs =>
    simp only [roundTrippable, Bool.and_eq_true, Bool.or_eq_true, decide_eq_true_eq] at h
    rcases h.1.1 with (h1 | h1) | h1 <;> subst h1 <;> rfl

theorem genererAux_ok (base : StyleDict) (bs : List Bloc) (h : bs.all roundTrippable = true) :
    genererAux base bs = .ok (bs.flatMap (exportBlocOk base)) := by
  induction bs with
  | nil => rfl
  | cons b bs ih =>
    have hb : roundTrippable b = true := List.all_eq_true.mp h b (by simp)
    have hbs : bs.all roundTrippable = true := by
      apply List.all_eq_true.mpr
      intro x hx
      exact List.all_eq_true.mp h x (by simp [hx])
    simp only [genererAux, exportBloc_ok base b hb, ih hbs, List.flatMap_cons]
    rfl

theorem readBack_par (base : StyleDict) (acc : List Bloc) (t : String) (runs : List RunData)
    (rest : List DocxBlock) (hrt : roundTrippable (.par t runs) = true) :
    analyserAux acc (exportBlocOk base (.par t runs) ++ rest)
      = analyserAux (acc ++ [.par t (runs.map (reReadRun base))]) rest := by
  simp only [roundTrippable, Bool.and_eq_true, Bool.or_eq_true, decide_eq_true_eq] at hrt
  obtain ⟨⟨ht, hne⟩, hall⟩ := hrt
  have hne' : runs ≠ [] := by
    intro hcon
    rw [hcon] at hne
    simp at hne
  have htexts : (runs.map (exportRun base)).all (fun r => !(isBlank r.text)) = true := by
    apply List.all_eq_true.mpr
    intro x hx
    obtain ⟨rd, hrd, hx⟩ := List.mem_map.mp hx
    subst hx
    simpa using List.all_eq_true.mp hall rd hrd
  have hblank : isBlank (paraText (runs.map (exportRun base))) = false :=
    paraText_nonblank _ (by simpa using hne') htexts
  have hfilter : (runs.map (exportRun base)).filter (fun r => !(isBlank r.text))
      = runs.map (exportRun base) := filter_nonblank_of_all _ htexts
  have hmm : ((runs.map (exportRun base)).map extraire_style_run) = runs.map (reReadRun base) := by
    rw [List.map_map]
    rfl
  have hfne : (runs.map (exportRun base)).filter (fun r => !(isBlank r.text)) ≠ [] := by
    rw [hfilter]
    simp only [ne_eq, List.map_eq_nil_iff]
    exact hne'
  rcases ht with (h1 | h1) | h1 <;> subst h1
  · rw [show exportBlocOk base (.par "paragraph" runs)
          = [DocxBlock.par (some "Normal") (runs.map (exportRun base))] from rfl,
      List.cons_append, analyserAux_cons_par,
      stepPara_par acc _ _ hblank (by decide) hfne, hfilter, hmm,
      show headingType (styleNameLower (some "Normal")) = "paragraph" from by decide,
      List.nil_append]
  · rw [show exportBlocOk base (.par "heading_1" runs)
          = [DocxBlock.par (some "Heading 1") (runs.map (exportRun base))] from rfl,
      List.cons_append, analyserAux_cons_par,
      stepPara_par acc _ _ hblank (by decide) hfne, hfilter, hmm,
      show headingType (styleNameLower (some "Heading 1")) = "heading_1" from by decide,
      List.nil_append]
  · rw [show exportBlocOk base (.par "heading_2" runs)
          = [DocxBlock.par (some "Heading 2") (runs.map (exportRun base))] from rfl,
      List.cons_append, analyserAux_cons_par,
      stepPara_par acc _ _ hblank (by decide) hfne, hfilter, hmm,
      show headingType (styleNameLower (some "Heading 2")) = "heading_2" from by decide,
      List.nil_append]

theorem readBack_list (base : StyleDict) (acc : List Bloc) (items : List String)
    (rest : List DocxBlock) (hrt : roundTrippable (.list items) = true)
    (he : endsWithList acc = false) :
    analyserAux acc (exportBlocOk base (.list items) ++ rest)
      = analyserAux (acc ++ [.list items]) rest := by
  simp only [roundTrippable, Bool.and_eq_true, Bool.not_eq_true'] at hrt
  obtain ⟨hne, hall⟩ := hrt
  have hitems : ∀ i ∈ items, isBlank i = false := by
    intro i hi
    simpa using List.all_eq_true.mp hall i hi
  have hplist : (items.map (addParagraphText (some "List Bullet"))).all
      DocxBlock.isListItemPara = true := by
    apply List.all_eq_true.mpr
    intro x hx
    obtain ⟨i, hi, hx⟩ := List.mem_map.mp hx
    subst hx
    have hib : isBlank i = false := hitems i hi
    have hiz : i ≠ "" := by
      intro hcon
      rw [hcon] at hib
      simp [isBlank] at hib
    simp [DocxBlock.isListItemPara, addParagraphText, hiz, paraText_plain, hib]
    decide
  have hmap : (items.map (addParagraphText (some "List Bullet"))).map DocxBlock.text = items := by
    rw [List.map_map]
    have hcong : ∀ i ∈ items, (DocxBlock.text ∘ addParagraphText (some "List Bullet")) i = id i := by
      intro i hi
      have hib : isBlank i = false := hitems i hi
      have hiz : i ≠ "" := by
        intro hcon
        rw [hcon] at hib
        simp [isBlank] at hib
      simp [Function.comp, DocxBlock.text, addParagraphText, hiz, paraText_plain]
    rw [List.map_congr_left hcong, List.map_id]
  have hne' : items.map (addParagraphText (some "List Bullet")) ≠ [] := by
    simp only [ne_eq, List.map_eq_nil_iff]
    intro hcon
    rw [hcon] at hne
    simp at hne
  rw [exportBlocOk, analyserAux_listRun_start acc _ rest hplist hne' he, hmap]

theorem roundTrip_body (base : StyleDict) (bs : List Bloc) (acc : List Bloc)
    (h : bs.all roundTrippable = true) (hadj : noAdjacentLists bs = true)
    (hhead : headIsList bs = true → endsWithList acc = false) :
    analyserAux acc (bs.flatMap (exportBlocOk base)) = acc ++ bs.map (reRead base) := by
  induction bs generalizing acc with
  | nil => simp [analyserAux_nil]
  | cons b bs ih =>
    have hb : roundTrippable b = true := List.all_eq_true.mp h b (by simp)
    have hbs : bs.all roundTrippable = true := by
      apply List.all_eq_true.mpr
      intro x hx
      exact List.all_eq_true.mp h x (by simp [hx])
    cases b with
    | table rows => simp [roundTrippable] at hb
    | par t runs =>
      have hadj' : noAdjacentLists bs = true := hadj
      rw [List.flatMap_cons, readBack_par base acc t runs _ hb,
        ih _ hbs hadj' (fun _ => endsWithList_append_par acc t _)]
      simp [reRead]
    | list items =>
      have he : endsWithList acc = false := hhead (by simp [headIsList])
      have hadj' : (!headIsList bs && noAdjacentLists bs) = true := hadj
      rw [Bool.and_eq_true, Bool.not_eq_true'] at hadj'
      rw [List.flatMap_cons, readBack_list base acc items _ hb he,
        ih _ hbs hadj'.2 (fun hl => absurd (hadj'.1 ▸ hl) (by simp))]
      simp [reRead]

theorem cellClean_append (xs ys : List Bloc) :
    cellClean (xs ++ ys) = (cellClean xs && cellClean ys) := by
  induction xs with
  | nil => simp [cellClean]
  | cons b bs ih => simp [cellClean, ih, Bool.and_assoc]

theorem rd_clean (runs : List DocxRun) :
    ((runs.filter (fun r => !(isBlank r.text))).map extraire_style_run).all
      (fun r => !(isBlank r.text)) = true := by
  apply List.all_eq_true.mpr
  intro x hx
  obtain ⟨r, hr, rfl⟩ := List.mem_map.mp hx
  have := List.of_mem_filter hr
  simpa using this

theorem stepPara_clean (acc : List Bloc) (st : Option String) (runs : List DocxRun)
    (h : cellClean acc = true) : cellClean (stepPara acc st runs) = true := by
  cases hb : isBlank (paraText runs) with
  | true => simp [stepPara, hb, h]
  | false =>
    cases hl : isListStyle (styleNameLower st) with
    | false =>
      cases hf : ((runs.filter (fun r => !(isBlank r.text))).map extraire_style_run).isEmpty with
      | true => simp [stepPara, hb, hl, hf, h]
      | false =>
        simp only [stepPara, hb, Bool.false_eq_true, if_false, hl, hf]
        rw [cellClean_append, h]
        simp [cellClean, blocClean, hf, rd_clean runs]
    | true =>
      rcases List.eq_nil_or_concat acc with rfl | ⟨as, a, rfl⟩
      · simp only [stepPara, hb, Bool.false_eq_true, if_false, hl, if_true]
        simp [cellClean, blocClean, hb]
      · simp only [List.concat_eq_append] at h ⊢
        have h' := h
        rw [cellClean_append] at h'
        rw [Bool.and_eq_true] at h'
        cases a with
        | list items =>
          simp only [stepPara, hb, Bool.false_eq_true, if_false, hl, if_true,
            List.getLast?_concat, List.dropLast_concat]
          rw [cellClean_append, h'.1]
          have hits := h'.2
          simp only [cellClean, blocClean, Bool.and_eq_true] at hits
          simp [cellClean, blocClean, hb, hits.1.2]
        | par t rs =>
          simp only [stepPara, hb, Bool.false_eq_true, if_false, hl, if_true,
            List.getLast?_concat]
          rw [cellClean_append, h]
          simp [cellClean, blocClean, hb]
        | table rows =>
          simp only [stepPara, hb, Bool.false_eq_true, if_false, hl, if_true,
            List.getLast?_concat]
          rw [cellClean_append, h]
          simp [cellClean, blocClean, hb]

mutual

theorem analyserAux_clean (acc : List Bloc) (bs : List DocxBlock) (h : cellClean acc = true) :
    cellClean (analyserAux acc bs) = true := by
  match bs with
  | [] =>
    rw [analyserAux_nil]
    exact h
  | .par st rs :: rest =>
    rw [analyserAux_cons_par]
    exact analyserAux_clean _ rest (stepPara_clean acc st rs h)
  | .table rows :: rest =>
    rw [analyserAux_cons_table]
    apply analyserAux_clean _ rest
    cases ht : (analyserRows rows).isEmpty with
    | true => simpa [ht] using h
    | false =>
      simp only [ht, Bool.false_eq_true, if_false]
      rw [cellClean_append, h]
      simp [cellClean, blocClean, analyserRows_clean rows]

theorem analyserRows_clean (rows : List (List (List DocxBlock))) :
    rowsClean (analyserRows rows) = true := by
  match rows with
  | [] => simp [analyserRows, rowsClean]
  | r :: rs =>
    simp only [analyserRows, rowsClean, Bool.and_eq_true]
    exact ⟨analyserRow_clean r, analyserRows_clean rs⟩

theorem analyserRow_clean (row : List (List DocxBlock)) :
    rowClean (analyserRow row) = true := by
  match row with
  | [] => simp [analyserRow, rowClean]
  | cell :: cs =>
    simp only [analyserRow, rowClean, Bool.and_eq_true]
    exact ⟨analyserAux_clean [] cell rfl, analyserRow_clean cs⟩

end

theorem PyField.merge_eq {α : Type} [DecidableEq α] (b o : PyField α) :
    b.merge o = if o = .absent then b else o := by
  cases o <;> simp [PyField.merge]

/-! ### Claim theorems -/

/-- C5: merging a base style with an override takes each field from the
override when the field is present there (even bound to `None`), else from
the base; in particular `{font_size:12, is_bold:false}` overridden by
`{is_bold:true}` gives `{font_size:12, is_bold:true}`, and overridden by
`{font_size:14}` gives `{font_size:14, is_bold:false}`. -/
theorem C5_style_merge_precedence :
    (∀ base ov : StyleDict,
      (mergeStyle base ov).font_name
          = (if ov.font_name = .absent then base.font_name else ov.font_name)
      ∧ (mergeStyle base ov).font_size
          = (if ov.font_size = .absent then base.font_size else ov.font_size)
      ∧ (mergeStyle base ov).is_bold
          = (if ov.is_bold = .absent then base.is_bold else ov.is_bold)
      ∧ (mergeStyle base ov).is_italic
          = (if ov.is_italic = .absent then base.is_italic else ov.is_italic)
      ∧ (mergeStyle base ov).font_color_rgb
          = (if ov.font_color_rgb = .absent then base.font_color_rgb else ov.font_color_rgb))
    ∧ mergeStyle { font_size := .val (.num 12), is_bold := .val false }
        { is_bold := .val true }
        = { font_size := .val (.num 12), is_bold := .val true }
    ∧ mergeStyle { font_size := .val (.num 12), is_bold := .val false }
        { font_size := .val (.num 14) }
        = { font_size := .val (.num 14), is_bold := .val false } := by
  refine ⟨fun base ov => ?_, by decide, by decide⟩
  simp [mergeStyle, PyField.merge_eq]

/-- C3: when the byte stream cannot be opened as a document package, or
any other exception is raised, `analyser_docx` returns the empty structure
with the empty diagnostics slot; the diagnostics slot is `None` on every
input. -/
theorem C3_corrupt_input_safety :
    (∀ err : DocxErr,
      analyser_docx (.error err) = ({ header := [], body := [], footer := [] }, none))
    ∧ (∀ opened : Except DocxErr DocxFile, (analyser_docx opened).2 = none) := by
  refine ⟨fun err => rfl, fun opened => ?_⟩
  cases opened with
  | error e => rfl
  | ok d =>
    obtain ⟨body, sections⟩ := d
    cases sections <;> rfl

/-- C4 counterexample: the element walk appends to the document before it
can raise (markdown passes raw HTML through, and on input such as
`<p>x</p><table><tr><td>a</td></tr><tr><td>b</td><td>c</td></tr></table>`
the first paragraph is rendered before the ragged table makes
`table.cell(1, 1)` at exporter.py 178 raise an `IndexError`), so the
document receives the already-rendered paragraph plus the two fallback
paragraphs — three in total, not exactly two. -/
theorem C4_counterexample :
    add_markdown
        (fun _ => ([addParagraphText (some "Normal") "x"], some "list index out of range"))
        [] "t"
      = [addParagraphText (some "Normal") "x",
         markdownWarningPara "list index out of range",
         addParagraphText (some "Normal") "t"]
    ∧ (add_markdown
        (fun _ => ([addParagraphText (some "Normal") "x"], some "list index out of range"))
        [] "t").length = 3 := ⟨rfl, rfl⟩

/-- C4 (amended): when the markup pipeline raises, the exception does not
escape; the document keeps whatever the walk had already rendered and then
receives exactly two additional paragraphs: an italic, grey warning whose
text contains the error message, then a paragraph with the original markup
text verbatim. -/
theorem C4_markdown_failure_fallback :
    ∀ (pipeline : String → List DocxBlock × Option String) (doc : List DocxBlock)
      (text e : String) (rendered : List DocxBlock),
      text ≠ "" → pipeline text = (rendered, some e) →
      add_markdown pipeline doc text
          = doc ++ rendered ++ [markdownWarningPara e, addParagraphText (some "Normal") text]
      ∧ markdownWarningPara e
          = .par (some "Normal")
              [{ text := "[Le formatage de ce bloc a échoué. Contenu original ci-dessous. Erreur : "
                    ++ e ++ "]"
               , fontName := none, sizePt := none, bold := none
               , italic := some true, colorHex := some "787878" }]
      ∧ addParagraphText (some "Normal") text = .par (some "Normal") [plainDocxRun text] := by
  intro pipeline doc text e rendered ht hp
  refine ⟨?_, rfl, ?_⟩
  · simp [add_markdown, ht, hp]
  · simp [addParagraphText, ht]

/-- C4 witness: a pipeline that raises after rendering nothing, on a
concrete text. -/
theorem C4_markdown_failure_fallback_witness :
    add_markdown (fun _ => ([], some "boom")) [] "hello"
      = [markdownWarningPara "boom", addParagraphText (some "Normal") "hello"] := by
  have h := C4_markdown_failure_fallback (fun _ => ([], some "boom")) [] "hello" "boom" []
    (by decide) rfl
  simpa using h.1

/-- C9 counterexample: a run whose leaf bold flag is unspecified is
extracted with `is_bold` bound to `None` (key present, null value), which
is not the boolean `false` the claim requires. -/
theorem C9_counterexample :
    ((extraire_style_run { text := "x" }).style.getD emptyStyleDict).is_bold = PyField.null
    ∧ (PyField.null : PyField Bool) ≠ PyField.val false := ⟨rfl, by decide⟩

/-- C9 (amended): the extracted `is_bold` and `is_italic` mirror the leaf
tri-state exactly (a boolean when specified, `None` when unspecified, the
key always present), and re-applying the extracted style writes that same
tri-state back to the run; the `false` default of the renderer applies
only when the key is entirely absent from a style dictionary. -/
theorem C9_bold_italic_tristate :
    ∀ (r : DocxRun) (t : String),
      ((extraire_style_run r).style.getD emptyStyleDict).is_bold = PyField.ofOption r.bold
      ∧ ((extraire_style_run r).style.getD emptyStyleDict).is_italic = PyField.ofOption r.italic
      ∧ (appliquer_style_run t (extraire_style_run r).style emptyStyleDict).bold = r.bold
      ∧ (appliquer_style_run t (extraire_style_run r).style emptyStyleDict).italic = r.italic
      ∧ (PyField.absent : PyField Bool).getOr false = some false := by
  intro r t
  refine ⟨rfl, rfl, ?_, ?_, rfl⟩
  · cases hb : r.bold <;>
      simp [appliquer_style_run, extraire_style_run, mergeStyle, PyField.merge,
        PyField.ofOption, PyField.getOr, emptyStyleDict, hb]
  · cases hi : r.italic <;>
      simp [appliquer_style_run, extraire_style_run, mergeStyle, PyField.merge,
        PyField.ofOption, PyField.getOr, emptyStyleDict, hi]

/-- C10: a positive numeric merged `font_size` is applied truncated to an
integer number of points (the floor, for positive values), and a
`font_size` on which `int` raises is silently ignored, leaving the size
unset instead of failing the render. -/
theorem C10_font_size_truncation :
    ∀ (base : StyleDict) (ov : Option StyleDict) (t : String),
      (∀ q : Rat,
        (mergeStyle base (ov.getD emptyStyleDict)).font_size = .val (.num q) → 0 < q →
          (appliquer_style_run t ov base).sizePt = some ((q.floor : Int) : Rat))
      ∧ (∀ truthy : Bool,
        (mergeStyle base (ov.getD emptyStyleDict)).font_size = .val (.raw truthy none) →
          (appliquer_style_run t ov base).sizePt = none) := by
  intro base ov t
  constructor
  · intro q hq hpos
    show ((appliedFontSize (mergeStyle base (ov.getD emptyStyleDict)).font_size).map
      (fun n => (n : Rat))) = _
    rw [hq]
    simp [appliedFontSize, PyField.get, SizeVal.truthy, SizeVal.toIntOpt, pyTrunc,
      hpos.ne', hpos.le]
  · intro truthy hq
    show ((appliedFontSize (mergeStyle base (ov.getD emptyStyleDict)).font_size).map
      (fun n => (n : Rat))) = _
    rw [hq]
    cases truthy <;> simp [appliedFontSize, PyField.get, SizeVal.truthy, SizeVal.toIntOpt]

/-- C10 witness: a 12.5 pt merged size is applied as 12 pt, and a
non-convertible size value leaves the size unset. -/
theorem C10_font_size_truncation_witness :
    (appliquer_style_run "x" none { font_size := PyField.val (.num (mkRat 25 2)) }).sizePt
        = some (12 : Rat)
    ∧ (appliquer_style_run "x" (some { font_size := PyField.val (.raw true none) })
        emptyStyleDict).sizePt = none := by
  constructor
  · have h := (C10_font_size_truncation { font_size := PyField.val (.num (mkRat 25 2)) }
      none "x").1 (mkRat 25 2) rfl (by decide)
    rw [h, show (mkRat 25 2).floor = (12 : Int) from by decide]
    norm_num
  · exact (C10_font_size_truncation emptyStyleDict
      (some { font_size := PyField.val (.raw true none) }) "x").2 true rfl

theorem extraireRowCells_flatMap (row : List (List Bloc)) :
    extraireRowCells row = row.flatMap extraireList := by
  induction row with
  | nil => simp [extraireRowCells]
  | cons c cs ih => simp [extraireRowCells, ih]

theorem extraireRows_flatMap (rows : List (List (List Bloc))) :
    extraireRows rows = rows.flatMap (fun row => row.flatMap extraireList) := by
  induction rows with
  | nil => simp [extraireRows]
  | cons r rs ih => simp [extraireRows, extraireRowCells_flatMap, ih]

/-- C8: flattening walks header, body, footer in that order, joins the
contributed texts with a blank line, recurses depth-first through table
cells in order, lets blocks without `runs`, `items` or `rows` contribute
nothing, returns the empty string when nothing is extractable, and maps
the `H`, `B`, `F` structure to `"H\n\nB\n\nF"`. -/
theorem C8_text_flattening_order :
    (∀ h b f : List Bloc,
      extraire_texte_de_structure ⟨h, b, f⟩
        = strIntercalate "\n\n" (extraireList h ++ extraireList b ++ extraireList f))
    ∧ (∀ rows, extraireBloc (.table rows)
        = rows.flatMap (fun row => row.flatMap extraireList))
    ∧ (∀ bt : String, extraireBloc (.par bt []) = [])
    ∧ extraire_texte_de_structure ⟨[], [], []⟩ = ""
    ∧ extraire_texte_de_structure ⟨[.par "x" []], [], [.table []]⟩ = ""
    ∧ extraire_texte_de_structure
        ⟨[.par "paragraph" [{ text := "H" }]], [.par "paragraph" [{ text := "B" }]],
         [.par "paragraph" [{ text := "F" }]]⟩ = "H\n\nB\n\nF" := by
  refine ⟨fun h b f => rfl, ?_, ?_, rfl, ?_, ?_⟩
  · intro rows
    rw [show extraireBloc (.table rows) = extraireRows rows from by simp [extraireBloc],
      extraireRows_flatMap]
  · intro bt
    by_cases h1 : bt = "table" <;> by_cases h2 : bt = "list" <;>
      simp [extraireBloc, h1, h2]
  · simp +decide [extraire_texte_de_structure, extraireList, extraireBloc, extraireRows,
      strIntercalate]
  · simp +decide [extraire_texte_de_structure, extraireList, extraireBloc, strConcat,
      strIntercalate]

/-- C6 counterexample: a whitespace-only paragraph separating two
list-style paragraphs is skipped, so the two one-element maximal sequences
of consecutive list-style paragraphs coalesce into a single `List` block
`["a", "b"]` instead of producing one block per maximal sequence. -/
theorem C6_counterexample :
    analyser_contenu_block
        [mkStyledPara "List Bullet" "a", mkStyledPara "Normal" "   ",
         mkStyledPara "List Bullet" "b"]
      = [.list ["a", "b"]]
    ∧ ([Bloc.list ["a", "b"]]).map Bloc.shape
        ≠ [BlocShape.list ["a"], BlocShape.list ["b"]] := by
  constructor
  · simp +decide [analyser_contenu_block, analyserAux, stepPara, mkStyledPara, paraText,
      strConcat, plainDocxRun, styleNameLower, isListStyle, headingType, extraire_style_run,
      endsWithList]
  · decide

/-- C6 (amended): a run of consecutive list-style paragraphs whose
processing starts when the last emitted block is not a `List` is read into
exactly one `List` block carrying the paragraph texts in source order
(blank-separated list runs coalesce further, see the counterexample); in
particular three consecutive list paragraphs `a`, `b`, `c` give one block
with `items = ["a", "b", "c"]`. -/
theorem C6_list_coalescing :
    (∀ (acc : List Bloc) (ps rest : List DocxBlock),
      ps.all DocxBlock.isListItemPara = true → ps ≠ [] → endsWithList acc = false →
        analyserAux acc (ps ++ rest)
          = analyserAux (acc ++ [.list (ps.map DocxBlock.text)]) rest)
    ∧ analyser_contenu_block
        [mkStyledPara "List Bullet" "a", mkStyledPara "List Bullet" "b",
         mkStyledPara "List Bullet" "c"]
        = [.list ["a", "b", "c"]] := by
  refine ⟨analyserAux_listRun_start, ?_⟩
  simp +decide [analyser_contenu_block, analyserAux, stepPara, mkStyledPara, paraText,
    strConcat, plainDocxRun, styleNameLower, isListStyle, endsWithList]

/-- C6 witness: the coalescing statement applied to a concrete two-item
run of list paragraphs. -/
theorem C6_list_coalescing_witness :
    analyserAux [] [mkStyledPara "List Bullet" "a", mkStyledPara "List Bullet" "x"]
      = [Bloc.list ["a", "x"]] := by
  have h := C6_list_coalescing.1 []
    [mkStyledPara "List Bullet" "a", mkStyledPara "List Bullet" "x"] []
    (by simp +decide [DocxBlock.isListItemPara, mkStyledPara, paraText, strConcat,
      plainDocxRun, styleNameLower, isListStyle])
    (List.cons_ne_nil _ _) rfl
  simpa +decide [analyserAux_nil, DocxBlock.text, mkStyledPara, paraText, strConcat,
    plainDocxRun] using h

theorem strStartsWith_conflict (sn p q : String) (hp : strStartsWith sn p = true)
    (hq : strStartsWith sn q = true) (hpq : strStartsWith q p = false)
    (hlen : p.data.length ≤ q.data.length) : False := by
  rw [strStartsWith, decide_eq_true_eq] at hp hq
  rw [strStartsWith, decide_eq_false_iff_not] at hpq
  exact hpq (List.prefix_of_prefix_length_le hp hq hlen)

/-- C2 counterexample: a paragraph styled `Heading 3` is read back as a
plain `paragraph` block, not `heading_3`: the reader matches only levels 1
and 2. -/
theorem C2_counterexample :
    (analyser_contenu_block [mkStyledPara "Heading 3" "x"]).map Bloc.shape
        = [BlocShape.par "paragraph" ["x"]]
    ∧ BlocShape.par "paragraph" ["x"] ≠ BlocShape.par "heading_3" ["x"] := by
  constructor
  · simp +decide [analyser_contenu_block, analyserAux, stepPara, mkStyledPara, paraText,
      strConcat, plainDocxRun, styleNameLower, isListStyle, headingType,
      extraire_style_run, Bloc.shape, endsWithList]
  · decide

/-- C2 (amended): non-list paragraph style names are matched
case-insensitively against the level-1 and level-2 heading prefixes only,
in English (`heading N`) and French (`titre N`) naming; `Heading 2` and
`Titre 2` both classify as `heading_2`, and any style matching none of the
four prefixes (including `Heading 3` through `Heading 6`) yields a plain
paragraph block. -/
theorem C2_heading_classification :
    (∀ (acc : List Bloc) (name : String) (runs : List DocxRun),
      isBlank (paraText runs) = false →
      isListStyle (pyLower name) = false →
      runs.filter (fun r => !(isBlank r.text)) ≠ [] →
        stepPara acc (some name) runs
          = acc ++ [.par (headingType (pyLower name))
              ((runs.filter (fun r => !(isBlank r.text))).map extraire_style_run)])
    ∧ (∀ sn : String,
        (strStartsWith sn "heading 2" || strStartsWith sn "titre 2") = true →
        headingType sn = "heading_2")
    ∧ headingType (pyLower "Heading 2") = "heading_2"
    ∧ headingType (pyLower "Titre 2") = "heading_2"
    ∧ (∀ sn : String,
        strStartsWith sn "heading 1" = false → strStartsWith sn "titre 1" = false →
        strStartsWith sn "heading 2" = false → strStartsWith sn "titre 2" = false →
        headingType sn = "paragraph")
    ∧ headingType (pyLower "Heading 3") = "paragraph"
    ∧ headingType (pyLower "Titre 6") = "paragraph" := by
  refine ⟨?_, ?_, by decide, by decide, ?_, by decide, by decide⟩
  · intro acc name runs hb hl hf
    have hf' : (runs.filter (fun r => !(isBlank r.text))).map extraire_style_run ≠ [] := by
      simp only [ne_eq, List.map_eq_nil_iff]
      exact hf
    rw [stepPara_par acc (some name) runs hb hl hf]
    rfl
  · intro sn h2
    rw [Bool.or_eq_true] at h2
    rw [headingType]
    rcases h2 with h2 | h2
    · rw [if_neg, if_pos (by rw [h2]; simp)]
      intro hcon
      rw [Bool.or_eq_true] at hcon
      rcases hcon with hc | hc
      · exact strStartsWith_conflict sn "heading 1" "heading 2" hc h2 (by decide) (by decide)
      · exact strStartsWith_conflict sn "titre 1" "heading 2" hc h2 (by decide) (by decide)
    · rw [if_neg, if_pos (by rw [h2]; simp)]
      intro hcon
      rw [Bool.or_eq_true] at hcon
      rcases hcon with hc | hc
      · exact strStartsWith_conflict sn "titre 2" "heading 1" h2 hc (by decide) (by decide)
      · exact strStartsWith_conflict sn "titre 1" "titre 2" hc h2 (by decide) (by decide)
  · intro sn h1 h2 h3 h4
    rw [headingType, if_neg (by simp [h1, h2]), if_neg (by simp [h3, h4])]

/-- C2 witness: the classification applied to a concrete `Titre 2`
paragraph. -/
theorem C2_heading_classification_witness :
    stepPara [] (some "Titre 2") [plainDocxRun "t"]
      = [Bloc.par "heading_2" [extraire_style_run (plainDocxRun "t")]] := by
  have h := C2_heading_classification.1 [] "Titre 2" [plainDocxRun "t"]
    (by simp +decide [paraText, strConcat, plainDocxRun])
    (by decide)
    (by simp +decide [plainDocxRun])
  simpa +decide [paraText, strConcat, plainDocxRun, headingType] using h

/-- C7: every structure the reader produces is clean — every emitted
paragraph or heading block carries at least one run and no blank run text,
lists carry no blank item, recursively through table cells; whitespace-only
paragraphs are skipped, paragraphs with zero kept runs are dropped, and a
document of two real paragraphs separated by whitespace-only ones yields
exactly two blocks. -/
theorem C7_no_blank_output :
    (∀ opened : Except DocxErr DocxFile,
      cellClean (analyser_docx opened).1.header = true
      ∧ cellClean (analyser_docx opened).1.body = true
      ∧ cellClean (analyser_docx opened).1.footer = true)
    ∧ (∀ (acc : List Bloc) (st : Option String) (runs : List DocxRun),
        isBlank (paraText runs) = true → stepPara acc st runs = acc)
    ∧ (∀ (acc : List Bloc) (st : Option String) (runs : List DocxRun),
        isBlank (paraText runs) = false → isListStyle (styleNameLower st) = false →
        runs.filter (fun r => !(isBlank r.text)) = [] → stepPara acc st runs = acc)
    ∧ (analyser_contenu_block
        [mkStyledPara "Normal" "x", mkStyledPara "Normal" " ", mkStyledPara "Normal" "  ",
         mkStyledPara "Normal" "y"]).length = 2 := by
  refine ⟨?_, stepPara_blank, stepPara_drop, ?_⟩
  · intro opened
    cases opened with
    | error e => exact ⟨rfl, rfl, rfl⟩
    | ok d =>
      obtain ⟨body, sections⟩ := d
      cases sections with
      | nil => exact ⟨rfl, analyserAux_clean [] body rfl, rfl⟩
      | cons s ss => exact ⟨rfl, rfl, rfl⟩
  · simp +decide [analyser_contenu_block, analyserAux, stepPara, mkStyledPara, paraText,
      strConcat, plainDocxRun, styleNameLower, isListStyle, headingType,
      extraire_style_run, endsWithList]

/-- C7 witness: the skip statements applied to concrete whitespace-only
and all-blank-runs paragraphs. -/
theorem C7_no_blank_output_witness :
    stepPara [] (some "Normal") [plainDocxRun " "] = []
    ∧ stepPara [] (some "Normal") [] = [] := by
  constructor
  · exact C7_no_blank_output.2.1 [] (some "Normal") [plainDocxRun " "]
      (by simp +decide [paraText, strConcat, plainDocxRun])
  · exact C7_no_blank_output.2.1 [] (some "Normal") [] (by decide)

theorem shape_reRead (base : StyleDict) (b : Bloc) : (reRead base b).shape = b.shape := by
  cases b with
  | par t runs =>
    simp only [reRead, Bloc.shape, List.map_map]
    rfl
  | list items => rfl
  | table rows => rfl

/-- The document file obtained by re-opening a stream written by the
renderer: the rendered body, and the default single section every saved
document carries (its header and footer content is never observed by the
reader, whose traversal of them raises first). -/
def readBackFile (d : List DocxBlock) : DocxFile :=
  { body := d, sections := [{}] }

/-- C1 counterexample: re-reading any rendered document with
`analyser_docx` yields the empty structure, because every saved document
has a section and the header traversal raises an `AttributeError`
(importer.py 45 on a `w:hdr` element with no `body`), which the outer
handler turns into the empty structure, discarding the parsed body; so
even a single rendered paragraph does not survive the round trip.
Moreover, even the body traversal alone reads a rendered `heading_3`
block back as a plain `paragraph` block, since the reader only classifies
heading levels 1 and 2. -/
theorem C1_counterexample :
    generer_export_docx (fun _ => none) [Bloc.par "paragraph" [{ text := "x" }]]
        = .ok [DocxBlock.par (some "Normal") [appliquer_style_run "x" none emptyStyleDict]]
    ∧ analyser_docx (.ok (readBackFile
          [DocxBlock.par (some "Normal") [appliquer_style_run "x" none emptyStyleDict]]))
        = (emptyStructure, none)
    ∧ ([Bloc.par "paragraph" [{ text := "x" }]]).map Bloc.shape ≠ emptyStructure.body.map Bloc.shape
    ∧ generer_export_docx (fun _ => none) [Bloc.par "heading_3" [{ text := "x" }]]
        = .ok [DocxBlock.par (some "Heading 3") [appliquer_style_run "x" none emptyStyleDict]]
    ∧ (analyser_contenu_block
          [DocxBlock.par (some "Heading 3") [appliquer_style_run "x" none emptyStyleDict]]).map
        Bloc.shape
        = [BlocShape.par "paragraph" ["x"]]
    ∧ BlocShape.par "paragraph" ["x"] ≠ BlocShape.par "heading_3" ["x"] := by
  refine ⟨rfl, rfl, by decide, rfl, ?_, by decide⟩
  simp +decide [analyser_contenu_block, analyserAux, stepPara, paraText, strConcat,
    styleNameLower, isListStyle, headingType, extraire_style_run, Bloc.shape,
    appliquer_style_run, endsWithList, emptyStyleDict, mergeStyle, PyField.merge,
    appliedFontSize, appliedColor, PyField.get, PyField.getOr]

/-- C1 (amended): for structures made of `paragraph`, `heading_1` and
`heading_2` blocks with at least one run each and no blank run text, and
nonempty lists of non-blank items with no two list blocks adjacent — no
tables — rendering with `generer_export_docx` succeeds, and the reader
body traversal (`_analyser_contenu_block`) applied to the rendered body
yields blocks whose types, ordering and run texts equal those of the
original (styles may differ); `analyser_docx` itself, applied to the
re-opened document, returns the empty structure, because the header
traversal of its section raises and the outer handler discards the parsed
body. -/
theorem C1_round_trip :
    ∀ (styles : String → Option StyleDict) (bs : List Bloc),
      bs.all roundTrippable = true → noAdjacentLists bs = true →
      ∃ d, generer_export_docx styles bs = .ok d
        ∧ (analyser_contenu_block d).map Bloc.shape = bs.map Bloc.shape
        ∧ analyser_docx (.ok (readBackFile d)) = (emptyStructure, none) := by
  intro styles bs h hadj
  refine ⟨bs.flatMap (exportBlocOk ((styles "response").getD emptyStyleDict)),
    genererAux_ok _ bs h, ?_, rfl⟩
  rw [analyser_contenu_block,
    roundTrip_body ((styles "response").getD emptyStyleDict) bs [] h hadj (fun _ => rfl)]
  simp only [List.nil_append, List.map_map]
  apply List.map_congr_left
  intro b _
  exact shape_reRead _ b

/-- C1 witness: the round trip applied to a concrete two-block structure. -/
theorem C1_round_trip_witness :
    ∃ d, generer_export_docx (fun _ => none)
        [Bloc.par "paragraph" [{ text := "w" }], Bloc.list ["i"]] = .ok d
      ∧ (analyser_contenu_block d).map Bloc.shape
          = [BlocShape.par "paragraph" ["w"], BlocShape.list ["i"]] := by
  obtain ⟨d, hd, hb, _⟩ := C1_round_trip (fun _ => none)
    [Bloc.par "paragraph" [{ text := "w" }], Bloc.list ["i"]]
    (by simp +decide [roundTrippable, isBlank])
    (by decide)
  refine ⟨d, hd, ?_⟩
  rw [hb]
  simp [Bloc.shape]

end IaProvider
